import Mathlib

/-!
Verification development for the statement-parsing engine of the financial
statement reader (`src/agents/pdf_reader.py`).

The Python function `PDFReaderTool._extract_financial_data` together with the
summary computation of `PDFReaderTool._run` is shallow-embedded here over
`List Char`.  Amounts ("floats" carrying two-decimal currency values) are
modelled as rationals; the regular-expression matchers of the pattern table are
embedded as executable functions implementing Python `re` semantics (leftmost
match, alternation order, greedy/non-greedy repetition with backtracking) for
the concrete patterns in the source.  Python exceptions raised by `float()` on
a degenerate amount token propagate out of the extractor, so the embedded
extractor returns `Option`: `none` models the raised exception.

The statement-period and account-info extraction of the source writes fields
that are disjoint from everything the theorems below mention; its date
normalizer `format_date` is embedded standalone.
-/

namespace PdfReader

/-- Character lists, the representation of Python strings here. -/
abbrev Chars := List Char

/-- The characters of a string literal. -/
def str (s : String) : Chars := s.data

/-- Python whitespace (`str.strip` / regex `\s`, ASCII range). -/
def pyWS (c : Char) : Bool :=
  c = ' ' || c = '\t' || c = '\n' || c = '\r' || c = Char.ofNat 11 || c = Char.ofNat 12

/-- `str.lower()`. -/
def lowerC (cs : Chars) : Chars := cs.map Char.toLower

/-- `str.strip()`: drop leading and trailing whitespace. -/
def pyStrip (cs : Chars) : Chars :=
  ((cs.dropWhile pyWS).reverse.dropWhile pyWS).reverse

/-- Python's `sub in hay` substring test. -/
def containsSub (hay sub : Chars) : Bool :=
  match hay with
  | [] => sub.isEmpty
  | c :: t => sub.isPrefixOf (c :: t) || containsSub t sub

/-- `text.split('\n')`: split at every newline, keeping empty pieces. -/
def splitNl : Chars → List Chars
  | [] => [[]]
  | c :: t =>
    if c = '\n' then [] :: splitNl t
    else
      match splitNl t with
      | [] => [[c]]
      | l :: ls => (c :: l) :: ls

/-- Numeric value of a digit string. -/
def digitsToNat (cs : Chars) : ℕ := cs.foldl (fun n c => 10 * n + (c.toNat - 48)) 0

/-- Python `float()` on the strings reachable in the source (an optional sign
already stripped, characters drawn from digits and at most one dot).  `none`
models the `ValueError` Python raises on `""` or `"."`. -/
def pyFloatQ (cs : Chars) : Option ℚ :=
  let intPart := cs.takeWhile (fun c => c ≠ '.')
  let rest := cs.dropWhile (fun c => c ≠ '.')
  match rest with
  | [] => if !cs.isEmpty && cs.all Char.isDigit then some (digitsToNat cs) else none
  | _ :: frac =>
    if (intPart.all Char.isDigit && frac.all Char.isDigit)
        && (!intPart.isEmpty || !frac.isEmpty) then
      some ((digitsToNat intPart : ℚ) + (digitsToNat frac : ℚ) / (10 : ℚ) ^ frac.length)
    else none

/-- `amount_str.replace('$', '').replace(',', '')`. -/
def cleanAmt (cs : Chars) : Chars := cs.filter (fun c => !(c = '$' || c = ','))

/-- The `if amount_str.startswith('-'): amount_str = amount_str[1:]` step. -/
def stripNeg : Chars → Chars
  | '-' :: t => t
  | cs => cs

/-- `str.zfill(2)` on the sign-free strings reachable here. -/
def zfill2 (cs : Chars) : Chars :=
  if cs.length < 2 then List.replicate (2 - cs.length) '0' ++ cs else cs

/-- `str.split()` with no argument: split on whitespace runs, dropping empties. -/
def pySplitWSAux : Chars → Chars → List Chars
  | acc, [] => if acc.isEmpty then [] else [acc.reverse]
  | acc, c :: t =>
    if pyWS c then
      if acc.isEmpty then pySplitWSAux [] t else acc.reverse :: pySplitWSAux [] t
    else pySplitWSAux (c :: acc) t

/-- `str.split()` with no argument. -/
def pySplitWS (cs : Chars) : List Chars := pySplitWSAux [] cs

/-- `str.split(sep)` for a one-character separator, keeping empty pieces. -/
def splitCharAux (sep : Char) : Chars → Chars → List Chars
  | acc, [] => [acc.reverse]
  | acc, c :: t =>
    if c = sep then acc.reverse :: splitCharAux sep [] t
    else splitCharAux sep (c :: acc) t

/-- `str.split(sep)` for a one-character separator. -/
def splitChar (sep : Char) (cs : Chars) : List Chars := splitCharAux sep [] cs

/-- The keys of the source's `month_map`. -/
def monthNames : List Chars :=
  [str "Jan", str "Feb", str "Mar", str "Apr", str "May", str "Jun",
   str "Jul", str "Aug", str "Sep", str "Oct", str "Nov", str "Dec"]

/-- `month_map` lookup; `none` models the `KeyError` the source catches. -/
def monthMap (m : Chars) : Option Chars :=
  if m = str "Jan" then some (str "01")
  else if m = str "Feb" then some (str "02")
  else if m = str "Mar" then some (str "03")
  else if m = str "Apr" then some (str "04")
  else if m = str "May" then some (str "05")
  else if m = str "Jun" then some (str "06")
  else if m = str "Jul" then some (str "07")
  else if m = str "Aug" then some (str "08")
  else if m = str "Sep" then some (str "09")
  else if m = str "Oct" then some (str "10")
  else if m = str "Nov" then some (str "11")
  else if m = str "Dec" then some (str "12")
  else none

/-- The date normalizer `format_date` of `_extract_financial_data`
(src/agents/pdf_reader.py lines 109-136).  Commas are removed and the result
stripped; a 3-letter-month date is rebuilt from `month_map` with the year
defaulting to the literal `"2025"`; a numeric date is zero-padded with a
2-digit year expanded to `"20YY"` and a missing year defaulting to `"2025"`;
anything else (including a `KeyError` from `month_map`, which the source
catches) returns the cleaned string unchanged. -/
def format_date (input : Chars) : Chars :=
  let date_str := pyStrip (input.filter (fun c => c ≠ ','))
  if monthNames.any (fun m => containsSub date_str m) then
    match pySplitWS date_str with
    | [m, d] =>
      (match monthMap (m.take 3) with
       | some mm => mm ++ str "/" ++ zfill2 d ++ str "/2025"
       | none => date_str)
    | [m, d, y] =>
      (match monthMap (m.take 3) with
       | some mm => mm ++ str "/" ++ zfill2 d ++ str "/" ++ y
       | none => date_str)
    | _ => date_str
  else if date_str.contains '/' || date_str.contains '-' then
    let sep := if date_str.contains '/' then '/' else '-'
    match splitChar sep date_str with
    | m :: d :: rest =>
      let y : Chars :=
        match rest with
        | [] => str "2025"
        | y0 :: _ => if y0.length = 2 then str "20" ++ y0 else y0
      zfill2 m ++ str "/" ++ zfill2 d ++ str "/" ++ y
    | _ => date_str
  else date_str

/-- The `format_date` the claim describes, following the spec's words: as the
source's normalizer, but an unresolvable year defaults to the current
processing year (passed here as a digit string) instead of a fixed constant. -/
def format_date_claimed (yearStr : Chars) (input : Chars) : Chars :=
  let date_str := pyStrip (input.filter (fun c => c ≠ ','))
  if monthNames.any (fun m => containsSub date_str m) then
    match pySplitWS date_str with
    | [m, d] =>
      (match monthMap (m.take 3) with
       | some mm => mm ++ str "/" ++ zfill2 d ++ str "/" ++ yearStr
       | none => date_str)
    | [m, d, y] =>
      (match monthMap (m.take 3) with
       | some mm => mm ++ str "/" ++ zfill2 d ++ str "/" ++ y
       | none => date_str)
    | _ => date_str
  else if date_str.contains '/' || date_str.contains '-' then
    let sep := if date_str.contains '/' then '/' else '-'
    match splitChar sep date_str with
    | m :: d :: rest =>
      let y : Chars :=
        match rest with
        | [] => yearStr
        | y0 :: _ => if y0.length = 2 then str "20" ++ y0 else y0
      zfill2 m ++ str "/" ++ zfill2 d ++ str "/" ++ y
    | _ => date_str
  else date_str

/-! ## Data model

The dictionaries built by `_extract_financial_data` and `_run`, as records.
`net_change` is `Option` because the Python dict only gains that key for
credit-card statements. -/

/-- One entry of `balance_info["accounts"]` (bank multi-account summaries). -/
structure AccountEntry where
  account_number : Chars
  opening : ℚ
  closing : ℚ
  change : ℚ
deriving DecidableEq, Repr, Inhabited

/-- The `balance_info` dictionary. -/
structure BalanceInfo where
  accounts : List AccountEntry
  previous_balance : ℚ
  payments : ℚ
  other_credits : ℚ
  purchases : ℚ
  cash_advances : ℚ
  fees : ℚ
  interest : ℚ
  new_balance : ℚ
  net_change : Option ℚ
deriving DecidableEq, Repr, Inhabited

/-- A transaction dictionary. -/
structure Transaction where
  type : Chars
  amount : ℚ
  date : Chars
  category : Chars
  description : Chars
  is_recurring : Bool
deriving DecidableEq, Repr, Inhabited

/-- The section state of the line loop (`current_section`). -/
inductive Sect where
  | nosec
  | account_summary
  | payments_credits
  | transactions
deriving DecidableEq, Repr, Inhabited

/-- The mutable state of the line loop of `_extract_financial_data`: the
transaction list, the balance ledger, the current section, the three
per-section buckets and the (never written) category set. -/
structure ExtractState where
  transactions : List Transaction
  balance : BalanceInfo
  sec : Sect
  sec_account_summary : List Transaction
  sec_payments_credits : List Transaction
  sec_transactions : List Transaction
  categories : List Chars
deriving DecidableEq, Repr, Inhabited

/-- The initial `financial_data` structure (src lines 23-45). -/
def initBalance : BalanceInfo := ⟨[], 0, 0, 0, 0, 0, 0, 0, 0, none⟩

/-- Initial loop state. -/
def initState : ExtractState := ⟨[], initBalance, .nosec, [], [], [], []⟩

/-! ## The pattern library

Executable embeddings of the regular expressions of `patterns` (src lines
55-68) and the two account-summary sub-patterns (src lines 221, 240), each
implementing `re.search` semantics for its concrete pattern: leftmost match,
alternatives in order, greedy/lazy repetition with the backtracking the
pattern actually needs. -/

/-- Regex `\w` (ASCII). -/
def isW (c : Char) : Bool := c.isAlphanum || c = '_'

/-- Match `\$[\d,]+\.?\d*` at the head; returns the matched text.  Nothing
follows this alternative in its patterns, so greedy maximal munch is exact. -/
def matchDollarAmt (cs : Chars) : Option Chars :=
  match cs with
  | '$' :: rest =>
    let ds := rest.takeWhile (fun c => c.isDigit || c = ',')
    let r1 := rest.dropWhile (fun c => c.isDigit || c = ',')
    if ds.isEmpty then none
    else
      match r1 with
      | '.' :: r2 => some ('$' :: ds ++ '.' :: r2.takeWhile Char.isDigit)
      | _ => some ('$' :: ds)
  | _ => none

/-- Match `\d+\.\d{2}` at the head; returns the matched text. -/
def matchPlainAmt (cs : Chars) : Option Chars :=
  let ds := cs.takeWhile Char.isDigit
  let r1 := cs.dropWhile Char.isDigit
  if ds.isEmpty then none
  else
    match r1 with
    | '.' :: a :: b :: _ => if a.isDigit && b.isDigit then some (ds ++ ['.', a, b]) else none
    | _ => none

/-- `re.search` for `patterns["amount"] = \$[\d,]+\.?\d*|\d+\.\d{2}`. -/
def amountSearch : Chars → Option Chars
  | [] => none
  | c :: t =>
    match matchDollarAmt (c :: t) with
    | some m => some m
    | none =>
      match matchPlainAmt (c :: t) with
      | some m => some m
      | none => amountSearch t

/-- A date separator dash-or-slash. -/
def sepChar (c : Char) : Bool := c = '-' || c = '/'

/-- Match `\d{1,2}` followed by a separator: the digit run must have length 1
or 2 (a longer run leaves a digit where the separator is required, which no
backtracking can repair). -/
def digits12Sep (cs : Chars) : Option (Chars × Char × Chars) :=
  let ds := cs.takeWhile Char.isDigit
  let r := cs.dropWhile Char.isDigit
  if ds.length = 1 || ds.length = 2 then
    match r with
    | s :: t => if sepChar s then some (ds, s, t) else none
    | [] => none
  else none

/-- Match a trailing `\d{m,n}` (nothing follows): greedy `min(run, n)`,
requiring at least `m` digits. -/
def digitsAtLeast (m n : ℕ) (cs : Chars) : Option Chars :=
  let ds := cs.takeWhile Char.isDigit
  if m ≤ ds.length then some (ds.take n) else none

/-- Alternative 1 of `patterns["date"]`: digits, separator, digits, separator, digits (`1-2`, `1-2`, `2-4` digits, separators dash or slash). -/
def matchDateAlt1 (cs : Chars) : Option Chars :=
  match digits12Sep cs with
  | none => none
  | some (d1, s1, r1) =>
    match digits12Sep r1 with
    | none => none
    | some (d2, s2, r2) =>
      match digitsAtLeast 2 4 r2 with
      | none => none
      | some d3 => some (d1 ++ s1 :: d2 ++ s2 :: d3)

/-- Alternative 2 of `patterns["date"]`: four digits, separator, `1-2` digits, separator, `1-2` digits. -/
def matchDateAlt2 (cs : Chars) : Option Chars :=
  let ds := cs.takeWhile Char.isDigit
  let r := cs.dropWhile Char.isDigit
  if ds.length = 4 then
    match r with
    | s :: t =>
      if sepChar s then
        match digits12Sep t with
        | none => none
        | some (d2, s2, r2) =>
          match digitsAtLeast 1 2 r2 with
          | none => none
          | some d3 => some (ds ++ s :: d2 ++ s2 :: d3)
      else none
    | [] => none
  else none

/-- Alternative 3 of `patterns["date"]`: `\w{3}\s+\d{1,2}` (pattern end). -/
def matchMonDayEnd (cs : Chars) : Option Chars :=
  match cs with
  | a :: b :: c :: rest =>
    if isW a && isW b && isW c then
      let sp := rest.takeWhile pyWS
      let r1 := rest.dropWhile pyWS
      if sp.isEmpty then none
      else
        match digitsAtLeast 1 2 r1 with
        | none => none
        | some ds => some (a :: b :: c :: sp ++ ds)
    else none
  | _ => none

/-- `re.search` for `patterns["date"]`. -/
def dateSearch : Chars → Option Chars
  | [] => none
  | c :: t =>
    match matchDateAlt1 (c :: t) with
    | some m => some m
    | none =>
      match matchDateAlt2 (c :: t) with
      | some m => some m
      | none =>
        match matchMonDayEnd (c :: t) with
        | some m => some m
        | none => dateSearch t

/-- Scan for the leftmost case-insensitive occurrence of a section-header
literal; the input is the lowercased line, the result is the lowercased
matched text (`section_match.group().lower()`). -/
def headerScan : Chars → Option Chars
  | [] => none
  | c :: t =>
    if (str "account summary").isPrefixOf (c :: t) then some (str "account summary")
    else if (str "payments, credits and adjustments").isPrefixOf (c :: t) then
      some (str "payments, credits and adjustments")
    else if (str "transactions").isPrefixOf (c :: t) then some (str "transactions")
    else headerScan t

/-- `re.search(patterns["section_header"], line, re.IGNORECASE)` followed by
`.group().lower()`. -/
def sectionHeaderFind (line : Chars) : Option Chars := headerScan (lowerC line)

/-- Match `\w{3}\s+\d{1,2}` where the whole-pattern context requires the
digits to be followed by whitespace (groups 1 and 2 of
`patterns["transaction_line"]`, each followed by `\s+`).  Returns the captured
text and the rest. -/
def monDayBeforeWS (cs : Chars) : Option (Chars × Chars) :=
  match cs with
  | a :: b :: c :: rest =>
    if isW a && isW b && isW c then
      let sp := rest.takeWhile pyWS
      let r1 := rest.dropWhile pyWS
      if sp.isEmpty then none
      else
        let ds := r1.takeWhile Char.isDigit
        let r2 := r1.dropWhile Char.isDigit
        if ds.length = 1 || ds.length = 2 then
          match r2 with
          | w :: _ => if pyWS w then some (a :: b :: c :: sp ++ ds, r2) else none
          | [] => none
        else none
    else none
  | _ => none

/-- One repetition of the non-capturing group
`(?:\s+\$[\d,]+\.?\d*|\s+\d+\.\d{2})`; returns the rest on success. -/
def starRep (cs : Chars) : Option Chars :=
  let sp := cs.takeWhile pyWS
  let r1 := cs.dropWhile pyWS
  if sp.isEmpty then none
  else
    match matchDollarAmt r1 with
    | some m => some (r1.drop m.length)
    | none =>
      match matchPlainAmt r1 with
      | some m => some (r1.drop m.length)
      | none => none

/-- The tail `\s+(\$[\d,]+\.?\d*|\d+\.\d{2})` of the transaction-line
pattern: returns group 4. -/
def finAt (cs : Chars) : Option Chars :=
  let sp := cs.takeWhile pyWS
  let r1 := cs.dropWhile pyWS
  if sp.isEmpty then none
  else
    match matchDollarAmt r1 with
    | some m => some m
    | none => matchPlainAmt r1

/-- The greedy star `(?:\s+amt)*` followed by the final `\s+(amt)`: try one
more repetition first, fall back to taking the final group here.  Fuel is the
remaining length; each repetition consumes at least one character. -/
def starThenFinal : ℕ → Chars → Option Chars
  | 0, cs => finAt cs
  | fuel + 1, cs =>
    match starRep cs with
    | some rest =>
      (match starThenFinal fuel rest with
       | some g4 => some g4
       | none => finAt cs)
    | none => finAt cs

/-- The character class `[A-Za-z0-9\s\-\.,&\'*]` of the description group. -/
def descClass (c : Char) : Bool :=
  c.isAlphanum || pyWS c || c = '-' || c = '.' || c = ',' || c = '&' || c = '\'' || c = '*'

/-- The lazy description group `([A-Za-z0-9\s\-\.,&\'*]+?)` followed by the
star and the final amount: grow the description one character at a time
(shortest first), at each length trying the tail.  Returns (group 3, group 4). -/
def g3Search : ℕ → Chars → Chars → Option (Chars × Chars)
  | 0, _, _ => none
  | _ + 1, _, [] => none
  | fuel + 1, acc, c :: rest =>
    if descClass c then
      match starThenFinal rest.length rest with
      | some g4 => some (acc ++ [c], g4)
      | none => g3Search fuel (acc ++ [c]) rest
    else none

/-- The greedy `\s+` before the description group, with backtracking: the
description class contains `\s`, so on failure the `\s+` yields whitespace
back to the description one character at a time (longest consumed first,
minimum one). -/
def trySpaces : ℕ → Chars → Chars → Option (Chars × Chars)
  | 0, _, _ => none
  | n + 1, sp, r =>
    let tailcs := sp.drop (n + 1) ++ r
    match g3Search tailcs.length [] tailcs with
    | some res => some res
    | none => trySpaces n sp r

/-- Attempt `patterns["transaction_line"]` anchored at the head; returns
(group 1 = transaction date, group 3 = description, group 4 = amount).
Group 2 (the post date) is discarded as in the source. -/
def transMatchAt (cs : Chars) : Option (Chars × Chars × Chars) :=
  match monDayBeforeWS cs with
  | none => none
  | some (g1, r1) =>
    let r2 := r1.dropWhile pyWS
    if (r1.takeWhile pyWS).isEmpty then none
    else
      match monDayBeforeWS r2 with
      | none => none
      | some (_, r3) =>
        let sp2 := r3.takeWhile pyWS
        let r4 := r3.dropWhile pyWS
        if sp2.isEmpty then none
        else
          match trySpaces sp2.length sp2 r4 with
          | none => none
          | some (g3, g4) => some (g1, g3, g4)

/-- `re.search` for `patterns["transaction_line"]`. -/
def transLineSearch : Chars → Option (Chars × Chars × Chars)
  | [] => none
  | c :: t =>
    match transMatchAt (c :: t) with
    | some r => some r
    | none => transLineSearch t

/-- Match `([\d,]+\.\d{2})`; returns the capture and the rest. -/
def acctAmt (cs : Chars) : Option (Chars × Chars) :=
  let ds := cs.takeWhile (fun c => c.isDigit || c = ',')
  let r1 := cs.dropWhile (fun c => c.isDigit || c = ',')
  if ds.isEmpty then none
  else
    match r1 with
    | '.' :: a :: b :: rest =>
      if a.isDigit && b.isDigit then some (ds ++ ['.', a, b], rest) else none
    | _ => none

/-- Match `\s+`; returns the rest. -/
def wsPlus (cs : Chars) : Option Chars :=
  if (cs.takeWhile pyWS).isEmpty then none else some (cs.dropWhile pyWS)

/-- Attempt the bank account-summary pattern (src line 221)
`360\s+(?:Checking|Performance\s+Savings)\.{3}(\d{4})\s+\$([\d,]+\.\d{2})\s+\$([\d,]+\.\d{2})`
anchored at the head, building the `account_info` entry of src lines 229-234. -/
def acct360At (cs : Chars) : Option AccountEntry :=
  match cs with
  | '3' :: '6' :: '0' :: rest =>
    match wsPlus rest with
    | none => none
    | some r1 =>
      let r2 : Option Chars :=
        if (str "Checking").isPrefixOf r1 then some (r1.drop 8)
        else if (str "Performance").isPrefixOf r1 then
          match wsPlus (r1.drop 11) with
          | none => none
          | some r1b => if (str "Savings").isPrefixOf r1b then some (r1b.drop 7) else none
        else none
      match r2 with
      | none => none
      | some r3 =>
        match r3 with
        | '.' :: '.' :: '.' :: r4 =>
          let ds := r4.takeWhile Char.isDigit
          if ds.length = 4 then
            match wsPlus (r4.drop 4) with
            | none => none
            | some r5 =>
              match r5 with
              | '$' :: r6 =>
                match acctAmt r6 with
                | none => none
                | some (o, r7) =>
                  match wsPlus r7 with
                  | none => none
                  | some r8 =>
                    match r8 with
                    | '$' :: r9 =>
                      match acctAmt r9 with
                      | none => none
                      | some (c, _) =>
                        let op := (pyFloatQ (cleanAmt o)).getD 0
                        let cl := (pyFloatQ (cleanAmt c)).getD 0
                        some ⟨ds, op, cl, cl - op⟩
                    | _ => none
              | _ => none
          else none
        | _ => none
  | _ => none

/-- `re.search` for the `360 Checking` account-line pattern. -/
def acct360Search : Chars → Option AccountEntry
  | [] => none
  | c :: t =>
    match acct360At (c :: t) with
    | some e => some e
    | none => acct360Search t

/-- Attempt the `All\s+Accounts\s+\$([\d,]+\.\d{2})\s+\$([\d,]+\.\d{2})`
pattern (src line 240) anchored at the head, building the synthetic "total"
entry of src lines 246-251. -/
def allAccountsAt (cs : Chars) : Option AccountEntry :=
  match cs with
  | 'A' :: 'l' :: 'l' :: rest =>
    match wsPlus rest with
    | none => none
    | some r1 =>
      if (str "Accounts").isPrefixOf r1 then
        match wsPlus (r1.drop 8) with
        | none => none
        | some r2 =>
          match r2 with
          | '$' :: r3 =>
            match acctAmt r3 with
            | none => none
            | some (o, r4) =>
              match wsPlus r4 with
              | none => none
              | some r5 =>
                match r5 with
                | '$' :: r6 =>
                  match acctAmt r6 with
                  | none => none
                  | some (c, _) =>
                    let op := (pyFloatQ (cleanAmt o)).getD 0
                    let cl := (pyFloatQ (cleanAmt c)).getD 0
                    some ⟨str "total", op, cl, cl - op⟩
                | _ => none
          | _ => none
      else none
  | _ => none

/-- `re.search` for the `All Accounts` total-line pattern. -/
def allAccountsSearch : Chars → Option AccountEntry
  | [] => none
  | c :: t =>
    match allAccountsAt (c :: t) with
    | some e => some e
    | none => allAccountsSearch t

/-- Full-string match of `^[\s\$]*[\d,]+\.?\d*[\s\$]*$` (src lines 212, 324):
a line or description that is only an amount.  The character classes are
pairwise disjoint except for the optional dot, which must be consumed when
present, so a deterministic scan is exact. -/
def isAmountOnlyStr (cs : Chars) : Bool :=
  let r1 := cs.dropWhile (fun c => pyWS c || c = '$')
  let ds := r1.takeWhile (fun c => c.isDigit || c = ',')
  let r2 := r1.dropWhile (fun c => c.isDigit || c = ',')
  if ds.isEmpty then false
  else
    let r3 := match r2 with | '.' :: t => t | _ => r2
    let r4 := r3.dropWhile Char.isDigit
    (r4.dropWhile (fun c => pyWS c || c = '$')).isEmpty

/-! ## Keyword tables and line filters (src lines 199-213, 314, 375, 382-390) -/

/-- `['date', 'description', 'amount', 'balance']` (src line 199). -/
def headerWords : List Chars := [str "date", str "description", str "amount", str "balance"]

/-- The boilerplate fragments of the percentage/summary skip (src lines 203-208). -/
def boilerWords : List Chars :=
  [str "purchases", str "cash advances", str "fees", str "interest",
   str "ses", str "ces", str "p $0.00", str "other $",
   str "credit limit", str "exchange rate", str "minimum payment",
   str "available credit", str "cash advance limit"]

/-- `['ses', 'ces', 'p $0.00', 'other $']` (src line 314). -/
def blackWords1 : List Chars := [str "ses", str "ces", str "p $0.00", str "other $"]

/-- The transaction-line metadata blacklist (src lines 382-390). -/
def metaWords : List Chars :=
  [str "credit limit", str "exchange rate", str "minimum payment",
   str "available credit", str "cash advance limit", str "payment due",
   str "credit available"]

/-- `['monthly', 'subscription', 'recurring', 'automatic', 'membership']`
(src line 375). -/
def recurWords : List Chars :=
  [str "monthly", str "subscription", str "recurring", str "automatic", str "membership"]

/-- The alternatives of `patterns["credit_card"]` (src line 63). -/
def creditCardWords : List Chars :=
  [str "credit card", str "visa", str "mastercard", str "amex",
   str "discover", str "capital one"]

/-- `any(w in l for w in ws)`. -/
def anyKw (l : Chars) (ws : List Chars) : Bool := ws.any (fun w => containsSub l w)

/-- The three line filters of src lines 198-213 (blank or column-header line;
percentage or boilerplate line; amount-only line), any of which `continue`s. -/
def skipLine (line : Chars) : Bool :=
  (pyStrip line).isEmpty
  || anyKw (lowerC line) headerWords
  || line.contains '%'
  || anyKw (lowerC line) boilerWords
  || isAmountOnlyStr (pyStrip line)

/-- `re.search(patterns["credit_card"], text, re.IGNORECASE)` as a Boolean
(src line 71). -/
def isCreditCard (text : Chars) : Bool := anyKw (lowerC text) creditCardWords

/-! ## The section classifier (src lines 183-196) -/

/-- The `section_name` dispatch chain of src lines 188-195: the lowercased
matched text is tested for "account summary", then "payments", then
"transactions"; on no hit the section is left unchanged (the line is still
consumed). -/
def sectOfName (m : Chars) : Option Sect :=
  if containsSub (lowerC m) (str "account summary") then some .account_summary
  else if containsSub m (str "payments") then some .payments_credits
  else if containsSub m (str "transactions") then some .transactions
  else none

/-- The header test of src line 185: a `section_header` regex hit, or the
case-sensitive fallbacks `"Account Summary" in line` / `"ACCOUNT NAME" in
line` (which use the literal name `"account_summary"`, on which the dispatch
chain finds none of its space-separated keywords).  `some o` means the line is
consumed as a header, with `o` the new section if any. -/
def headerResult (line : Chars) : Option (Option Sect) :=
  match sectionHeaderFind line with
  | some m => some (sectOfName m)
  | none =>
    if containsSub line (str "Account Summary") || containsSub line (str "ACCOUNT NAME") then
      some (sectOfName (str "account_summary"))
    else none

/-! ## The line extractor -/

/-- The merchant-keyword categorization of src lines 361-372.  The incoming
category is always the default `"other"` at this point, so leaving it
unchanged on no match is returning `"other"`. -/
def categorize (desc : Chars) : Chars :=
  let d := lowerC desc
  if containsSub d (str "amazon") then str "shopping"
  else if containsSub d (str "restaurant") || containsSub d (str "cafe") then str "dining"
  else if containsSub d (str "apple.com") then str "subscription"
  else if containsSub d (str "godaddy") then str "business"
  else if containsSub d (str "garage") then str "parking"
  else if containsSub d (str "wegmans") then str "groceries"
  else str "other"

/-- The section-based typing of src lines 350-372: for credit-card
statements, a payments-credits line becomes a payment (accumulated into
`balance_info["payments"]`), a transactions line stays an expense (accumulated
into `balance_info["purchases"]`) with merchant categorization. -/
def applySection (cc : Bool) (sec : Sect) (bal : BalanceInfo) (t : Transaction) :
    BalanceInfo × Transaction :=
  match cc, sec with
  | true, .payments_credits =>
    ({ bal with payments := bal.payments + t.amount },
     { t with type := str "payment", category := str "payment" })
  | true, .transactions =>
    ({ bal with purchases := bal.purchases + t.amount },
     { t with type := str "expense", category := categorize t.description })
  | _, _ => (bal, t)

/-- Unconditional append of a finished transaction to the statement list and
to the bucket of the current section, if one is active (src lines 394-397). -/
def pushT (st : ExtractState) (t : Transaction) : ExtractState :=
  { st with
    transactions := st.transactions ++ [t]
    sec_account_summary :=
      if st.sec = .account_summary then st.sec_account_summary ++ [t]
      else st.sec_account_summary
    sec_payments_credits :=
      if st.sec = .payments_credits then st.sec_payments_credits ++ [t]
      else st.sec_payments_credits
    sec_transactions :=
      if st.sec = .transactions then st.sec_transactions ++ [t]
      else st.sec_transactions }

/-- The `amount > 0` inclusion guard of src line 393. -/
def pushTransaction (st : ExtractState) (t : Transaction) : ExtractState :=
  if 0 < t.amount then pushT st t else st

/-- One keyword branch of the account-summary chain: find an amount token,
clean it (optionally stripping a leading minus, as the payments branch does),
convert, and overwrite the balance slot.  No amount token leaves the state
unchanged; a `float()` failure propagates as `none`. -/
def setField (st : ExtractState) (line : Chars) (negStrip : Bool)
    (upd : BalanceInfo → ℚ → BalanceInfo) : Option ExtractState :=
  match amountSearch line with
  | none => some st
  | some m =>
    match pyFloatQ (if negStrip then stripNeg (cleanAmt m) else cleanAmt m) with
    | none => none
    | some q => some { st with balance := upd st.balance q }

/-- The keyword chain of the account-summary section (src lines 256-298),
substring-tested on the lowercased line. -/
def summaryFields (st : ExtractState) (line : Chars) : Option ExtractState :=
  if containsSub (lowerC line) (str "previous balance") then
    setField st line false (fun b q => { b with previous_balance := q })
  else if containsSub (lowerC line) (str "payments") then
    setField st line true (fun b q => { b with payments := q })
  else if containsSub (lowerC line) (str "other credits") then
    setField st line false (fun b q => { b with other_credits := q })
  else if containsSub (lowerC line) (str "purchases") then
    setField st line false (fun b q => { b with purchases := q })
  else if containsSub (lowerC line) (str "cash advances") then
    setField st line false (fun b q => { b with cash_advances := q })
  else if containsSub (lowerC line) (str "fees") then
    setField st line false (fun b q => { b with fees := q })
  else if containsSub (lowerC line) (str "interest") then
    setField st line false (fun b q => { b with interest := q })
  else if containsSub (lowerC line) (str "new balance") then
    setField st line false (fun b q => { b with new_balance := q })
  else some st

/-- The account-summary branch of the line loop (src lines 216-299): the
fixed-format account line, then the "All Accounts" total line, then the
keyword chain. -/
def processSummary (st : ExtractState) (line : Chars) : Option ExtractState :=
  match acct360Search line with
  | some e =>
    some { st with balance := { st.balance with accounts := st.balance.accounts ++ [e] } }
  | none =>
    match allAccountsSearch line with
    | some e =>
      some { st with balance := { st.balance with accounts := st.balance.accounts ++ [e] } }
    | none => summaryFields st line

/-- The recurring-transaction keyword test (src line 375). -/
def isRecurringLine (line : Chars) : Bool := anyKw (lowerC line) recurWords

/-- The state after the section-typing balance accumulation when the
metadata re-filter then `continue`s the line (src line 391 after lines
350-372): the balance update is kept, nothing is pushed. -/
def balOnly (cc : Bool) (st : ExtractState) (t0 : Transaction) : ExtractState :=
  { st with balance := (applySection cc st.sec st.balance t0).1 }

/-- The common tail of the transaction branch: section typing and balance
accumulation, recurring flag, then the retention guard and append. -/
def finishTrans (cc : Bool) (st : ExtractState) (line : Chars) (t0 : Transaction) :
    ExtractState :=
  pushTransaction { st with balance := (applySection cc st.sec st.balance t0).1 }
    { (applySection cc st.sec st.balance t0).2 with is_recurring := isRecurringLine line }

/-- The transaction-record branch of the line loop (src lines 301-397): try
the composite transaction-line pattern, else fall back to independent amount
and date matches with the stripped line as description; type and balance
accumulation by section; recurring flag; metadata re-filter (composite path
only, after the balance accumulation); retention guard. -/
def processBody (cc : Bool) (st : ExtractState) (line : Chars) : Option ExtractState :=
  match transLineSearch line with
  | some (g1, g3, g4) =>
    if anyKw (lowerC line) blackWords1 then some st
    else if (pyStrip g3).isEmpty || isAmountOnlyStr (pyStrip g3) then some st
    else
      match pyFloatQ (stripNeg (cleanAmt g4)) with
      | none => none
      | some q =>
        if anyKw (lowerC g3) metaWords then
          some (balOnly cc st ⟨str "expense", q, g1, str "other", pyStrip g3, false⟩)
        else
          some (finishTrans cc st line ⟨str "expense", q, g1, str "other", pyStrip g3, false⟩)
  | none =>
    match (match amountSearch line with
           | some m => pyFloatQ (stripNeg (cleanAmt m))
           | none => some 0) with
    | none => none
    | some q =>
      some (finishTrans cc st line
        ⟨str "expense", q, (dateSearch line).getD [], str "other", pyStrip line, false⟩)

/-- One iteration of the line loop of `_extract_financial_data`
(src lines 182-397). -/
def processLine (cc : Bool) (st : ExtractState) (line : Chars) : Option ExtractState :=
  match headerResult line with
  | some osec => some { st with sec := osec.getD st.sec }
  | none =>
    if skipLine line then some st
    else if st.sec = .account_summary then processSummary st line
    else processBody cc st line

/-- The credit-card reconciliation value (src lines 402-411). -/
def netChangeVal (b : BalanceInfo) : ℚ :=
  b.previous_balance + b.payments + b.other_credits + b.purchases
    + b.cash_advances + b.fees + b.interest - b.new_balance

/-- The post-loop step: for credit-card statements, store `net_change`
computed from the final balance fields (src lines 399-411). -/
def finalizeFD (cc : Bool) (st : ExtractState) : ExtractState :=
  if cc then
    { st with balance := { st.balance with net_change := some (netChangeVal st.balance) } }
  else st

/-- The line loop; `none` models an uncaught `float()` exception. -/
def foldLines (cc : Bool) : List Chars → ExtractState → Option ExtractState
  | [], st => some st
  | l :: ls, st =>
    match processLine cc st l with
    | none => none
    | some st' => foldLines cc ls st'

/-- `_extract_financial_data` restricted to the fields the theorems mention
(the statement-period and account-info extraction writes disjoint fields and
cannot raise). -/
def extractFD (text : Chars) : Option ExtractState :=
  match foldLines (isCreditCard text) (splitNl text) initState with
  | none => none
  | some st => some (finalizeFD (isCreditCard text) st)

/-! ## The aggregator (src lines 438-458) -/

/-- Python-dict accumulation: add `v` at key `k`, preserving insertion order. -/
def addTo : List (Chars × ℚ) → Chars → ℚ → List (Chars × ℚ)
  | [], k, v => [(k, v)]
  | (k', v') :: rest, k, v =>
    if k' = k then (k', v' + v) :: rest else (k', v') :: addTo rest k v

/-- `sum(m.values())`. -/
def sumValues (m : List (Chars × ℚ)) : ℚ := (m.map Prod.snd).sum

/-- The single grouping pass of src lines 447-458 over the transaction list:
income map, expense map (the `else` branch takes every non-income
transaction), and the recurring items (modelled as category/amount pairs). -/
def buildMapsAux : List Transaction →
    List (Chars × ℚ) × List (Chars × ℚ) × List (Chars × ℚ) →
    List (Chars × ℚ) × List (Chars × ℚ) × List (Chars × ℚ)
  | [], acc => acc
  | t :: ts, (inc, exp, rcs) =>
    let inc' := if t.type = str "income" then addTo inc t.category t.amount else inc
    let exp' := if t.type = str "income" then exp else addTo exp t.category t.amount
    let rcs' := if t.is_recurring then rcs ++ [(t.category, t.amount)] else rcs
    buildMapsAux ts (inc', exp', rcs')

/-- `sum(t["amount"] for t in ts if t["type"] == ty)`. -/
def totalOf (ty : Chars) (ts : List Transaction) : ℚ :=
  ((ts.filter (fun t => t.type = ty)).map Transaction.amount).sum

/-- The summary dictionary of src lines 472-479. -/
structure Summary where
  total_income : ℚ
  total_expenses : ℚ
  net_cash_flow : ℚ
  income_by_category : List (Chars × ℚ)
  expense_by_category : List (Chars × ℚ)
  recurring_items : List (Chars × ℚ)
deriving DecidableEq, Repr, Inhabited

/-- The summary statistics of `_run` (src lines 438-458, 472-478). -/
def summarize (ts : List Transaction) : Summary :=
  let ti := totalOf (str "income") ts
  let te := totalOf (str "expense") ts
  let maps := buildMapsAux ts ([], [], [])
  ⟨ti, te, ti - te, maps.1, maps.2.1, maps.2.2⟩

/-- The analysis part of `_run`'s return value. -/
structure AnalysisResult where
  data : ExtractState
  summary : Summary
deriving DecidableEq, Repr, Inhabited

/-- Extraction followed by summary computation: the pure core of `_run`
applied to already-extracted text. -/
def runAnalysis (text : Chars) : Option AnalysisResult :=
  match extractFD text with
  | none => none
  | some fd => some ⟨fd, summarize fd.transactions⟩

/-- The total amount of transactions whose type is not `"income"` (the
`else` branch of the grouping pass). -/
def nonIncomeSum (ts : List Transaction) : ℚ :=
  ((ts.filter (fun t => ¬ t.type = str "income")).map Transaction.amount).sum

/-! ## Concrete instances

States computed by the embedded parser on short concrete statement texts,
used by the instance theorems below. -/

/-- Output on the one-line credit-card text `"VISA"`. -/
def visaSt : ExtractState := (extractFD (str "VISA")).getD initState

/-- The spec's transaction-line example. -/
def c2line : Chars := str "Mar 12  Mar 13  STARBUCKS STORE #123  $4.50"

/-- A credit-card statement containing the spec's transaction-line example
inside a Transactions section. -/
def c2text : Chars := str "VISA\nTransactions\nMar 12  Mar 13  STARBUCKS STORE #123  $4.50"

/-- Parser output on `c2text`. -/
def c2st : ExtractState := (extractFD c2text).getD initState

/-- An account-summary section with a previous-balance line carrying an
amount token. -/
def c3text : Chars := str "Account Summary\nPrevious Balance 100.00"

/-- Parser output on `c3text`. -/
def c3st : ExtractState := (extractFD c3text).getD initState

/-- A loop state sitting in the account-summary section. -/
def c3wState : ExtractState := { initState with sec := .account_summary }

/-- A credit-card statement with one expense line in a Transactions section. -/
def c4text : Chars := str "VISA\nTransactions\nSTORE A 12.00"

/-- Parser output on `c4text`. -/
def c4st : ExtractState := (extractFD c4text).getD initState

/-- The single transaction extracted from `c4text`. -/
def c4tx : Transaction := c4st.transactions.headI

/-- A credit-card statement with one payments-credits line. -/
def c5text : Chars := str "VISA\nPayments, Credits and Adjustments\nACME STORE 50.00"

/-- Analysis output on `c5text`. -/
def c5res : AnalysisResult := (runAnalysis c5text).getD default

/-- A credit-card statement whose transaction line precedes any section
header. -/
def c7text : Chars := str "VISA\nACME STORE 50.00"

/-- Parser output on `c7text`. -/
def c7st : ExtractState := (extractFD c7text).getD initState

/-- A credit-card statement with a sectioned transaction line. -/
def c7wText : Chars := str "VISA\nTransactions\nSTORE B 7.00"

/-- Parser output on `c7wText`. -/
def c7wSt : ExtractState := (extractFD c7wText).getD initState

/-- A small credit-card statement for the income-free instance. -/
def c9text : Chars := str "VISA\nTransactions\nSTORE C 9.00"

/-- Analysis output on `c9text`. -/
def c9res : AnalysisResult := (runAnalysis c9text).getD default

/-- A minimal credit-card text. -/
def c10text : Chars := str "VISA"

/-- Parser output on `c10text`. -/
def c10st : ExtractState := (extractFD c10text).getD initState

/-! ## Helper lemmas

Batteries marks the `Rat` field operations `@[irreducible]`; instance
evaluation on concrete rationals needs them unfoldable. -/

attribute [local semireducible] Rat.mul Rat.add Rat.sub Rat.inv Rat.ofScientific

set_option maxRecDepth 100000

theorem someEq {α : Type _} {a b : α} (h : some a = some b) : b = a :=
  (Option.some.inj h).symm

theorem containsSub_infix_iff (hay sub : Chars) :
    containsSub hay sub = true ↔ sub <:+: hay := by
  induction hay with
  | nil =>
    simp [containsSub, List.isEmpty_iff, List.infix_nil]
  | cons c t ih =>
    simp [containsSub, List.infix_cons_iff, ih, Bool.or_eq_true,
      List.isPrefixOf_iff_prefix]

theorem containsSub_trans {l s u : Chars} (h1 : containsSub l s = true)
    (h2 : containsSub s u = true) : containsSub l u = true := by
  rw [containsSub_infix_iff] at h1 h2 ⊢
  exact h2.trans h1

theorem skipLine_of_headerWord {line w : Chars} (hw : w ∈ headerWords)
    (h : containsSub (lowerC line) w = true) : skipLine line = true := by
  have ha : anyKw (lowerC line) headerWords = true :=
    List.any_eq_true.mpr ⟨w, hw, h⟩
  simp [skipLine, ha]

theorem skipLine_of_boilerWord {line w : Chars} (hw : w ∈ boilerWords)
    (h : containsSub (lowerC line) w = true) : skipLine line = true := by
  have ha : anyKw (lowerC line) boilerWords = true :=
    List.any_eq_true.mpr ⟨w, hw, h⟩
  simp [skipLine, ha]

theorem finalizeFD_fields (cc : Bool) (st : ExtractState) :
    (finalizeFD cc st).transactions = st.transactions ∧
    (finalizeFD cc st).sec_account_summary = st.sec_account_summary ∧
    (finalizeFD cc st).sec_payments_credits = st.sec_payments_credits ∧
    (finalizeFD cc st).sec_transactions = st.sec_transactions ∧
    (finalizeFD cc st).categories = st.categories := by
  unfold finalizeFD
  split <;> exact ⟨rfl, rfl, rfl, rfl, rfl⟩

theorem finalizeFD_dead (cc : Bool) (st : ExtractState) :
    (finalizeFD cc st).balance.previous_balance = st.balance.previous_balance ∧
    (finalizeFD cc st).balance.new_balance = st.balance.new_balance ∧
    (finalizeFD cc st).balance.cash_advances = st.balance.cash_advances ∧
    (finalizeFD cc st).balance.fees = st.balance.fees ∧
    (finalizeFD cc st).balance.interest = st.balance.interest := by
  unfold finalizeFD
  split <;> exact ⟨rfl, rfl, rfl, rfl, rfl⟩

theorem setField_cases {st : ExtractState} {line : Chars} {ns : Bool}
    {upd : BalanceInfo → ℚ → BalanceInfo} {st' : ExtractState}
    (h : setField st line ns upd = some st') :
    st' = st ∨ ∃ q, st' = { st with balance := upd st.balance q } := by
  unfold setField at h
  split at h
  · exact Or.inl (someEq h)
  · split at h
    · exact absurd h (by simp)
    · exact Or.inr ⟨_, someEq h⟩

theorem setField_shape {st : ExtractState} {line : Chars} {ns : Bool}
    {upd : BalanceInfo → ℚ → BalanceInfo} {st' : ExtractState}
    (h : setField st line ns upd = some st') :
    ∃ b, st' = { st with balance := b } := by
  rcases setField_cases h with h1 | ⟨q, h1⟩
  · exact ⟨_, h1⟩
  · exact ⟨_, h1⟩

theorem summaryFields_shape {st : ExtractState} {line : Chars} {st' : ExtractState}
    (h : summaryFields st line = some st') : ∃ b, st' = { st with balance := b } := by
  unfold summaryFields at h
  split_ifs at h
  all_goals first
    | exact setField_shape h
    | exact ⟨_, someEq h⟩

theorem processSummary_shape {st : ExtractState} {line : Chars} {st' : ExtractState}
    (h : processSummary st line = some st') : ∃ b, st' = { st with balance := b } := by
  unfold processSummary at h
  split at h
  · exact ⟨_, someEq h⟩
  · split at h
    · exact ⟨_, someEq h⟩
    · exact summaryFields_shape h

theorem applySection_type (cc : Bool) (sec : Sect) (bal : BalanceInfo) (t : Transaction) :
    (applySection cc sec bal t).2.type = t.type ∨
    (applySection cc sec bal t).2.type = str "payment" ∨
    (applySection cc sec bal t).2.type = str "expense" := by
  cases cc <;> cases sec <;> simp [applySection]

theorem applySection_dead (cc : Bool) (sec : Sect) (bal : BalanceInfo) (t : Transaction) :
    (applySection cc sec bal t).1.previous_balance = bal.previous_balance ∧
    (applySection cc sec bal t).1.new_balance = bal.new_balance ∧
    (applySection cc sec bal t).1.cash_advances = bal.cash_advances ∧
    (applySection cc sec bal t).1.fees = bal.fees ∧
    (applySection cc sec bal t).1.interest = bal.interest := by
  cases cc <;> cases sec <;> exact ⟨rfl, rfl, rfl, rfl, rfl⟩

theorem pushTransaction_balance (s : ExtractState) (t : Transaction) :
    (pushTransaction s t).balance = s.balance := by
  unfold pushTransaction
  split <;> rfl

theorem finishTrans_balance (cc : Bool) (st : ExtractState) (line : Chars)
    (t0 : Transaction) :
    (finishTrans cc st line t0).balance = (applySection cc st.sec st.balance t0).1 := by
  unfold finishTrans
  rw [pushTransaction_balance]

theorem finishTrans_shape (cc : Bool) (st : ExtractState) (line : Chars)
    (t0 : Transaction) (h0 : t0.type = str "expense") :
    (∃ b, finishTrans cc st line t0 = { st with balance := b }) ∨
    (∃ b t, 0 < t.amount ∧ (t.type = str "expense" ∨ t.type = str "payment") ∧
      finishTrans cc st line t0 = pushT { st with balance := b } t) := by
  unfold finishTrans pushTransaction
  split
  · right
    refine ⟨(applySection cc st.sec st.balance t0).1, _, by assumption, ?_, rfl⟩
    show (applySection cc st.sec st.balance t0).2.type = str "expense" ∨
      (applySection cc st.sec st.balance t0).2.type = str "payment"
    rcases applySection_type cc st.sec st.balance t0 with h | h | h
    · exact Or.inl (h.trans h0)
    · exact Or.inr h
    · exact Or.inl h
  · left
    exact ⟨_, rfl⟩

theorem processBody_shape {cc : Bool} {st : ExtractState} {line : Chars}
    {st' : ExtractState} (h : processBody cc st line = some st') :
    (∃ b, st' = { st with balance := b }) ∨
    (∃ b t, 0 < t.amount ∧ (t.type = str "expense" ∨ t.type = str "payment") ∧
      st' = pushT { st with balance := b } t) := by
  unfold processBody at h
  split at h
  · rename_i g1 g3 g4 heq
    by_cases hb : anyKw (lowerC line) blackWords1 = true
    · rw [if_pos hb] at h
      exact Or.inl ⟨_, someEq h⟩
    · rw [if_neg hb] at h
      by_cases hd : ((pyStrip g3).isEmpty || isAmountOnlyStr (pyStrip g3)) = true
      · rw [if_pos hd] at h
        exact Or.inl ⟨_, someEq h⟩
      · rw [if_neg hd] at h
        split at h
        · exact absurd h (by simp)
        · by_cases hm : anyKw (lowerC g3) metaWords = true
          · rw [if_pos hm] at h
            exact Or.inl ⟨_, someEq h⟩
          · rw [if_neg hm] at h
            rw [someEq h]
            exact finishTrans_shape cc st line _ rfl
  · split at h
    · exact absurd h (by simp)
    · rw [someEq h]
      exact finishTrans_shape cc st line _ rfl

theorem processBody_dead {cc : Bool} {st : ExtractState} {line : Chars}
    {st' : ExtractState} (h : processBody cc st line = some st') :
    st'.balance.previous_balance = st.balance.previous_balance ∧
    st'.balance.new_balance = st.balance.new_balance ∧
    st'.balance.cash_advances = st.balance.cash_advances ∧
    st'.balance.fees = st.balance.fees ∧
    st'.balance.interest = st.balance.interest := by
  unfold processBody at h
  split at h
  · rename_i g1 g3 g4 heq
    by_cases hb : anyKw (lowerC line) blackWords1 = true
    · rw [if_pos hb] at h
      rw [someEq h]; exact ⟨rfl, rfl, rfl, rfl, rfl⟩
    · rw [if_neg hb] at h
      by_cases hd : ((pyStrip g3).isEmpty || isAmountOnlyStr (pyStrip g3)) = true
      · rw [if_pos hd] at h
        rw [someEq h]; exact ⟨rfl, rfl, rfl, rfl, rfl⟩
      · rw [if_neg hd] at h
        split at h
        · exact absurd h (by simp)
        · by_cases hm : anyKw (lowerC g3) metaWords = true
          · rw [if_pos hm] at h
            rw [someEq h]
            exact applySection_dead cc st.sec st.balance _
          · rw [if_neg hm] at h
            rw [someEq h, finishTrans_balance]
            exact applySection_dead cc st.sec st.balance _
  · split at h
    · exact absurd h (by simp)
    · rw [someEq h, finishTrans_balance]
      exact applySection_dead cc st.sec st.balance _

theorem bool_eq_false_of_not {b : Bool} (h : ¬ b = true) : b = false := by
  cases b
  · rfl
  · exact absurd rfl h

/-- On a line that passed the filters of src lines 198-213, the
previous-balance, new-balance, cash-advances, fees and interest branches of
the keyword chain are unreachable: each trigger keyword contains a filtered
substring (`"balance"` from the column-header list, or the keyword itself from
the boilerplate list). -/
theorem summaryFields_dead {st : ExtractState} {line : Chars} {st' : ExtractState}
    (hns : skipLine line = false) (h : summaryFields st line = some st') :
    st'.balance.previous_balance = st.balance.previous_balance ∧
    st'.balance.new_balance = st.balance.new_balance ∧
    st'.balance.cash_advances = st.balance.cash_advances ∧
    st'.balance.fees = st.balance.fees ∧
    st'.balance.interest = st.balance.interest := by
  unfold summaryFields at h
  split_ifs at h with h1 h2 h3 h4 h5 h6 h7 h8
  · have hsk : skipLine line = true :=
      skipLine_of_headerWord (w := str "balance") (by decide)
        (containsSub_trans h1 (by decide))
    exact absurd hsk (by rw [hns]; decide)
  · rcases setField_cases h with h9 | ⟨q, h9⟩ <;> rw [h9] <;>
      exact ⟨rfl, rfl, rfl, rfl, rfl⟩
  · rcases setField_cases h with h9 | ⟨q, h9⟩ <;> rw [h9] <;>
      exact ⟨rfl, rfl, rfl, rfl, rfl⟩
  · have hsk : skipLine line = true :=
      skipLine_of_boilerWord (w := str "purchases") (by decide) h4
    exact absurd hsk (by rw [hns]; decide)
  · have hsk : skipLine line = true :=
      skipLine_of_boilerWord (w := str "cash advances") (by decide) h5
    exact absurd hsk (by rw [hns]; decide)
  · have hsk : skipLine line = true :=
      skipLine_of_boilerWord (w := str "fees") (by decide) h6
    exact absurd hsk (by rw [hns]; decide)
  · have hsk : skipLine line = true :=
      skipLine_of_boilerWord (w := str "interest") (by decide) h7
    exact absurd hsk (by rw [hns]; decide)
  · have hsk : skipLine line = true :=
      skipLine_of_headerWord (w := str "balance") (by decide)
        (containsSub_trans h8 (by decide))
    exact absurd hsk (by rw [hns]; decide)
  · rw [someEq h]
    exact ⟨rfl, rfl, rfl, rfl, rfl⟩

theorem processSummary_dead {st : ExtractState} {line : Chars} {st' : ExtractState}
    (hns : skipLine line = false) (h : processSummary st line = some st') :
    st'.balance.previous_balance = st.balance.previous_balance ∧
    st'.balance.new_balance = st.balance.new_balance ∧
    st'.balance.cash_advances = st.balance.cash_advances ∧
    st'.balance.fees = st.balance.fees ∧
    st'.balance.interest = st.balance.interest := by
  unfold processSummary at h
  split at h
  · rw [someEq h]; exact ⟨rfl, rfl, rfl, rfl, rfl⟩
  · split at h
    · rw [someEq h]; exact ⟨rfl, rfl, rfl, rfl, rfl⟩
    · exact summaryFields_dead hns h

theorem processLine_dead {cc : Bool} {st : ExtractState} {line : Chars}
    {st' : ExtractState} (h : processLine cc st line = some st') :
    st'.balance.previous_balance = st.balance.previous_balance ∧
    st'.balance.new_balance = st.balance.new_balance ∧
    st'.balance.cash_advances = st.balance.cash_advances ∧
    st'.balance.fees = st.balance.fees ∧
    st'.balance.interest = st.balance.interest := by
  unfold processLine at h
  split at h
  · rw [someEq h]; exact ⟨rfl, rfl, rfl, rfl, rfl⟩
  · split_ifs at h with hsk hsec
    · rw [someEq h]; exact ⟨rfl, rfl, rfl, rfl, rfl⟩
    · exact processSummary_dead (bool_eq_false_of_not hsk) h
    · exact processBody_dead h

theorem processLine_shape {cc : Bool} {st : ExtractState} {line : Chars}
    {st' : ExtractState} (h : processLine cc st line = some st') :
    (st'.transactions = st.transactions ∧
     st'.sec_account_summary = st.sec_account_summary ∧
     st'.sec_payments_credits = st.sec_payments_credits ∧
     st'.sec_transactions = st.sec_transactions ∧
     st'.categories = st.categories) ∨
    (∃ b t, 0 < t.amount ∧ (t.type = str "expense" ∨ t.type = str "payment") ∧
      st' = pushT { st with balance := b } t) := by
  unfold processLine at h
  split at h
  · rw [someEq h]
    exact Or.inl ⟨rfl, rfl, rfl, rfl, rfl⟩
  · split_ifs at h with hsk hsec
    · rw [someEq h]
      exact Or.inl ⟨rfl, rfl, rfl, rfl, rfl⟩
    · obtain ⟨b, hb⟩ := processSummary_shape h
      rw [hb]
      exact Or.inl ⟨rfl, rfl, rfl, rfl, rfl⟩
    · rcases processBody_shape h with ⟨b, hb⟩ | hr
      · rw [hb]
        exact Or.inl ⟨rfl, rfl, rfl, rfl, rfl⟩
      · exact Or.inr hr

/-- Fold-level invariant transfer. -/
theorem foldLines_inv (cc : Bool) (P : ExtractState → Prop)
    (hstep : ∀ st l st', processLine cc st l = some st' → P st → P st') :
    ∀ (ls : List Chars) (st st' : ExtractState),
      foldLines cc ls st = some st' → P st → P st' := by
  intro ls
  induction ls with
  | nil =>
    intro st st' h hp
    unfold foldLines at h
    rw [someEq h]
    exact hp
  | cons l ls ih =>
    intro st st' h hp
    unfold foldLines at h
    split at h
    · exact absurd h (by simp)
    · rename_i st1 heq
      exact ih st1 st' h (hstep st l st1 heq hp)

/-- Extraction-level invariant transfer. -/
theorem extract_inv (P : ExtractState → Prop)
    (hstep : ∀ cc st l st', processLine cc st l = some st' → P st → P st')
    (hinit : P initState)
    (hfin : ∀ cc st, P st → P (finalizeFD cc st))
    (text : Chars) (st : ExtractState) (h : extractFD text = some st) : P st := by
  unfold extractFD at h
  split at h
  · exact absurd h (by simp)
  · rename_i st0 heq
    have hp := foldLines_inv (isCreditCard text) P (hstep (isCreditCard text))
      (splitNl text) initState st0 heq hinit
    rw [someEq h]
    exact hfin (isCreditCard text) st0 hp

theorem pushT_transactions (s : ExtractState) (t : Transaction) :
    (pushT s t).transactions = s.transactions ++ [t] := rfl

theorem pushT_categories (s : ExtractState) (t : Transaction) :
    (pushT s t).categories = s.categories := rfl

theorem mem_pushT_b1 {s : ExtractState} {t t' : Transaction}
    (h : t' ∈ (pushT s t).sec_account_summary) :
    t' ∈ s.sec_account_summary ∨ t' = t := by
  simp only [pushT] at h
  split at h
  · rcases List.mem_append.mp h with h | h
    · exact Or.inl h
    · exact Or.inr (List.mem_singleton.mp h)
  · exact Or.inl h

theorem mem_pushT_b2 {s : ExtractState} {t t' : Transaction}
    (h : t' ∈ (pushT s t).sec_payments_credits) :
    t' ∈ s.sec_payments_credits ∨ t' = t := by
  simp only [pushT] at h
  split at h
  · rcases List.mem_append.mp h with h | h
    · exact Or.inl h
    · exact Or.inr (List.mem_singleton.mp h)
  · exact Or.inl h

theorem mem_pushT_b3 {s : ExtractState} {t t' : Transaction}
    (h : t' ∈ (pushT s t).sec_transactions) :
    t' ∈ s.sec_transactions ∨ t' = t := by
  simp only [pushT] at h
  split at h
  · rcases List.mem_append.mp h with h | h
    · exact Or.inl h
    · exact Or.inr (List.mem_singleton.mp h)
  · exact Or.inl h

theorem pushT_bucket_lengths (s : ExtractState) (t : Transaction) :
    (pushT s t).sec_account_summary.length + (pushT s t).sec_payments_credits.length +
      (pushT s t).sec_transactions.length ≤
    s.sec_account_summary.length + s.sec_payments_credits.length +
      s.sec_transactions.length + 1 := by
  rcases hs : s.sec <;> simp [pushT, hs] <;> omega

/-! ## Aggregator lemmas -/

theorem sumValues_addTo (m : List (Chars × ℚ)) (k : Chars) (v : ℚ) :
    sumValues (addTo m k v) = sumValues m + v := by
  induction m with
  | nil => simp [addTo, sumValues]
  | cons p rest ih =>
    rcases p with ⟨k', v'⟩
    by_cases hk : k' = k
    · simp [addTo, hk, sumValues]
      ring
    · simp only [addTo, if_neg hk, sumValues, List.map_cons, List.sum_cons]
      have ih' : (List.map Prod.snd (addTo rest k v)).sum = (List.map Prod.snd rest).sum + v := ih
      rw [ih']
      ring

theorem buildMapsAux_exp_sum :
    ∀ (ts : List Transaction) (inc exp rcs : List (Chars × ℚ)),
      sumValues (buildMapsAux ts (inc, exp, rcs)).2.1 = sumValues exp + nonIncomeSum ts
  | [], _, _, _ => by simp [buildMapsAux, nonIncomeSum]
  | t :: ts, inc, exp, rcs => by
    by_cases ht : t.type = str "income"
    · simp only [buildMapsAux, if_pos ht]
      rw [buildMapsAux_exp_sum ts _ _ _]
      simp [nonIncomeSum, List.filter_cons, ht]
    · simp only [buildMapsAux, if_neg ht]
      rw [buildMapsAux_exp_sum ts _ _ _, sumValues_addTo]
      simp only [nonIncomeSum, List.filter_cons, decide_not, ht, decide_False,
        Bool.not_false, if_true, List.map_cons, List.sum_cons]
      ring

theorem buildMapsAux_inc_nil :
    ∀ (ts : List Transaction) (exp rcs : List (Chars × ℚ)),
      (∀ t ∈ ts, ¬ t.type = str "income") →
      (buildMapsAux ts ([], exp, rcs)).1 = []
  | [], _, _, _ => rfl
  | t :: ts, exp, rcs, h => by
    have ht := h t (List.mem_cons_self t ts)
    simp only [buildMapsAux, if_neg ht]
    exact buildMapsAux_inc_nil ts _ _ (fun t' ht' => h t' (List.mem_cons_of_mem t ht'))

theorem totalOf_income_zero (ts : List Transaction)
    (h : ∀ t ∈ ts, ¬ t.type = str "income") : totalOf (str "income") ts = 0 := by
  unfold totalOf
  rw [List.filter_eq_nil_iff.mpr (fun t ht => by simpa using h t ht)]
  rfl

theorem nonIncomeSum_split :
    ∀ ts : List Transaction,
      (∀ t ∈ ts, t.type = str "expense" ∨ t.type = str "payment") →
      nonIncomeSum ts = totalOf (str "expense") ts + totalOf (str "payment") ts
  | [], _ => by simp [nonIncomeSum, totalOf]
  | t :: ts, h => by
    have hts := nonIncomeSum_split ts (fun t' ht' => h t' (List.mem_cons_of_mem t ht'))
    have hni : ¬ t.type = str "income" := by
      rcases h t (List.mem_cons_self t ts) with ht | ht <;> rw [ht] <;> decide
    rcases h t (List.mem_cons_self t ts) with ht | ht
    · have hnp : ¬ t.type = str "payment" := by rw [ht]; decide
      unfold nonIncomeSum totalOf at hts ⊢
      rw [List.filter_cons_of_pos (by simp [hni]),
          List.filter_cons_of_pos (by simp [ht]),
          List.filter_cons_of_neg (by simp [hnp])]
      simp only [List.map_cons, List.sum_cons]
      rw [hts]
      ring
    · have hne : ¬ t.type = str "expense" := by rw [ht]; decide
      unfold nonIncomeSum totalOf at hts ⊢
      rw [List.filter_cons_of_pos (by simp [hni]),
          List.filter_cons_of_neg (by simp [hne]),
          List.filter_cons_of_pos (by simp [ht])]
      simp only [List.map_cons, List.sum_cons]
      rw [hts]
      ring

/-- Every transaction the extractor retains has type `"expense"` or
`"payment"` (the default is `"expense"`, and the section typing only ever
sets `"payment"` or re-sets `"expense"`). -/
theorem extract_types (text : Chars) (st : ExtractState) (h : extractFD text = some st) :
    ∀ t ∈ st.transactions, t.type = str "expense" ∨ t.type = str "payment" := by
  refine extract_inv
    (fun s => ∀ t ∈ s.transactions, t.type = str "expense" ∨ t.type = str "payment")
    ?_ ?_ ?_ text st h
  · intro cc s l s' hpl hp
    rcases processLine_shape hpl with ⟨e1, _⟩ | ⟨b, t, _, htype, hps⟩
    · rw [e1]
      exact hp
    · subst hps
      intro t' ht'
      rw [pushT_transactions] at ht'
      rcases List.mem_append.mp ht' with hm | hm
      · exact hp t' hm
      · rw [List.mem_singleton.mp hm]
        exact htype
  · intro t ht
    exact absurd ht (by simp [initState])
  · intro cc s hp
    rw [(finalizeFD_fields cc s).1]
    exact hp

/-! ## Claim theorems -/

/-- C1: for every text matching the credit-card keyword pattern, the returned
balance_info carries a net_change field equal to previous_balance + payments +
other_credits + purchases + cash_advances + fees + interest − new_balance
computed from the final balance_info field values; and at
previous_balance=100, payments=50, purchases=200, new_balance=250 with all
other fields 0 that formula gives 100. -/
theorem c1_net_change_formula (text : Chars) (st : ExtractState)
    (hcc : isCreditCard text = true) (h : extractFD text = some st) :
    st.balance.net_change = some (st.balance.previous_balance + st.balance.payments +
      st.balance.other_credits + st.balance.purchases + st.balance.cash_advances +
      st.balance.fees + st.balance.interest - st.balance.new_balance) ∧
    netChangeVal ⟨[], 100, 50, 0, 200, 0, 0, 0, 250, none⟩ = 100 := by
  constructor
  · unfold extractFD at h
    rw [hcc] at h
    split at h
    · exact absurd h (by simp)
    · rw [someEq h]
      simp [finalizeFD, netChangeVal]
  · norm_num [netChangeVal]

/-- Witness for C1 at the one-line credit-card text `"VISA"`. -/
theorem c1_witness :
    visaSt.balance.net_change = some (visaSt.balance.previous_balance +
      visaSt.balance.payments + visaSt.balance.other_credits + visaSt.balance.purchases +
      visaSt.balance.cash_advances + visaSt.balance.fees + visaSt.balance.interest -
      visaSt.balance.new_balance) :=
  (c1_net_change_formula (str "VISA") visaSt (by decide) (by decide)).1

/-- C2 (counterexample): on the spec's own example line, inside a
Transactions section of a credit-card statement, the produced transaction
does not carry description "STARBUCKS STORE #123": the character # is outside
the composite pattern's description class, the composite match fails, and the
fallback keeps the whole stripped line as the description. -/
theorem c2_counterexample :
    extractFD c2text = some c2st ∧
    c2st.transactions.map Transaction.description = [c2line] ∧
    ¬ c2line = str "STARBUCKS STORE #123" := by decide

/-- C2 (amended): the line yields exactly one transaction with date
"Mar 12", amount 4.50, type expense and category "other", but its description
is the whole trimmed line (post date and amount included), produced by the
fallback path. -/
theorem c2_amended_transaction :
    extractFD c2text = some c2st ∧
    c2st.transactions =
      [⟨str "expense", 9/2, str "Mar 12", str "other", c2line, false⟩] := by decide

/-- C3 (counterexample): an account-summary line containing the keyword
"previous balance" together with an amount token leaves the previous_balance
slot at 0 — the line also contains "balance", so the column-header filter
drops it before extraction. -/
theorem c3_counterexample :
    extractFD c3text = some c3st ∧
    containsSub (lowerC (str "Previous Balance 100.00")) (str "previous balance") = true ∧
    amountSearch (str "Previous Balance 100.00") = some (str "100.00") ∧
    c3st.balance.previous_balance = 0 ∧ ((0 : ℚ) = 100 → False) := by decide

/-- C3 (amended): of the eight keyword branches only "payments" and
"other credits" are reachable.  (a) No processed line ever changes the
previous_balance, new_balance, cash_advances, fees or interest slots: every
output has them at 0, because a line containing one of those keywords always
contains a filtered substring ("balance" from the column-header list, or the
keyword itself from the boilerplate list) and is skipped.  (b) In the
account-summary section, a non-header line that passes the filters, matches
neither bank-account pattern, contains "payments" (and not "previous
balance") and an amount token sets the payments slot to the parsed amount.
(c) Likewise "other credits" (when neither earlier keyword occurs) sets the
other_credits slot. -/
theorem c3_amended_keywords :
    (∀ text st, extractFD text = some st →
      st.balance.previous_balance = 0 ∧ st.balance.new_balance = 0 ∧
      st.balance.cash_advances = 0 ∧ st.balance.fees = 0 ∧ st.balance.interest = 0) ∧
    (∀ (st : ExtractState) (line : Chars) (q : ℚ) (m : Chars) (cc : Bool),
      st.sec = .account_summary →
      headerResult line = none → skipLine line = false →
      acct360Search line = none → allAccountsSearch line = none →
      containsSub (lowerC line) (str "previous balance") = false →
      containsSub (lowerC line) (str "payments") = true →
      amountSearch line = some m →
      pyFloatQ (stripNeg (cleanAmt m)) = some q →
      processLine cc st line =
        some { st with balance := { st.balance with payments := q } }) ∧
    (∀ (st : ExtractState) (line : Chars) (q : ℚ) (m : Chars) (cc : Bool),
      st.sec = .account_summary →
      headerResult line = none → skipLine line = false →
      acct360Search line = none → allAccountsSearch line = none →
      containsSub (lowerC line) (str "previous balance") = false →
      containsSub (lowerC line) (str "payments") = false →
      containsSub (lowerC line) (str "other credits") = true →
      amountSearch line = some m →
      pyFloatQ (cleanAmt m) = some q →
      processLine cc st line =
        some { st with balance := { st.balance with other_credits := q } }) := by
  refine ⟨?_, ?_, ?_⟩
  · intro text st h
    refine extract_inv (fun s =>
      s.balance.previous_balance = 0 ∧ s.balance.new_balance = 0 ∧
      s.balance.cash_advances = 0 ∧ s.balance.fees = 0 ∧ s.balance.interest = 0)
      ?_ ?_ ?_ text st h
    · intro cc s l s' hpl hp
      obtain ⟨d1, d2, d3, d4, d5⟩ := processLine_dead hpl
      exact ⟨d1.trans hp.1, d2.trans hp.2.1, d3.trans hp.2.2.1,
        d4.trans hp.2.2.2.1, d5.trans hp.2.2.2.2⟩
    · exact ⟨rfl, rfl, rfl, rfl, rfl⟩
    · intro cc s hp
      obtain ⟨d1, d2, d3, d4, d5⟩ := finalizeFD_dead cc s
      exact ⟨d1.trans hp.1, d2.trans hp.2.1, d3.trans hp.2.2.1,
        d4.trans hp.2.2.2.1, d5.trans hp.2.2.2.2⟩
  · intro st line q m cc hsec hh hsk h360 haa hpb hpay ham hq
    simp [processLine, hh, hsk, hsec, processSummary, h360, haa, summaryFields,
      hpb, hpay, setField, ham, hq]
  · intro st line q m cc hsec hh hsk h360 haa hpb hpay hoc ham hq
    simp [processLine, hh, hsk, hsec, processSummary, h360, haa, summaryFields,
      hpb, hpay, hoc, setField, ham, hq]

/-- Witness for C3 at the line `"Payments 50.00"` inside the account-summary
section. -/
theorem c3_witness :
    processLine true c3wState (str "Payments 50.00") =
      some { c3wState with balance := { c3wState.balance with payments := 50 } } :=
  c3_amended_keywords.2.1 c3wState (str "Payments 50.00") 50 (str "50.00") true
    rfl (by decide) (by decide) (by decide) (by decide) (by decide) (by decide)
    (by decide) (by decide)

/-- C4: every transaction in the returned list and in every section bucket
has strictly positive amount; a candidate line with zero or unparseable
amount contributes no transaction. -/
theorem c4_positive_amounts (text : Chars) (st : ExtractState)
    (h : extractFD text = some st) :
    (∀ t ∈ st.transactions, 0 < t.amount) ∧
    (∀ t ∈ st.sec_account_summary, 0 < t.amount) ∧
    (∀ t ∈ st.sec_payments_credits, 0 < t.amount) ∧
    (∀ t ∈ st.sec_transactions, 0 < t.amount) := by
  refine extract_inv (fun s =>
    (∀ t ∈ s.transactions, 0 < t.amount) ∧
    (∀ t ∈ s.sec_account_summary, 0 < t.amount) ∧
    (∀ t ∈ s.sec_payments_credits, 0 < t.amount) ∧
    (∀ t ∈ s.sec_transactions, 0 < t.amount)) ?_ ?_ ?_ text st h
  · intro cc s l s' hpl hp
    rcases processLine_shape hpl with ⟨e1, e2, e3, e4, _⟩ | ⟨b, t, hamt, _, hps⟩
    · rw [e1, e2, e3, e4]
      exact hp
    · subst hps
      refine ⟨?_, ?_, ?_, ?_⟩
      · intro t' ht'
        rw [pushT_transactions] at ht'
        rcases List.mem_append.mp ht' with hm | hm
        · exact hp.1 t' hm
        · rw [List.mem_singleton.mp hm]
          exact hamt
      · intro t' ht'
        rcases mem_pushT_b1 ht' with hm | hm
        · exact hp.2.1 t' hm
        · rw [hm]
          exact hamt
      · intro t' ht'
        rcases mem_pushT_b2 ht' with hm | hm
        · exact hp.2.2.1 t' hm
        · rw [hm]
          exact hamt
      · intro t' ht'
        rcases mem_pushT_b3 ht' with hm | hm
        · exact hp.2.2.2 t' hm
        · rw [hm]
          exact hamt
  · refine ⟨?_, ?_, ?_, ?_⟩ <;> intro t ht <;> exact absurd ht (by simp [initState])
  · intro cc s hp
    obtain ⟨f1, f2, f3, f4, _⟩ := finalizeFD_fields cc s
    rw [f1, f2, f3, f4]
    exact hp

/-- Witness for C4 at the transaction extracted from `c4text`. -/
theorem c4_witness : 0 < c4tx.amount :=
  (c4_positive_amounts c4text c4st (by decide)).1 c4tx (by decide)

/-- C5 (counterexample): a credit-card statement whose only transaction is a
payment makes `sum(expense_by_category.values())` equal 50 while
`total_expenses` is 0 — the grouping's `else` branch files payment-type
transactions under expense_by_category, but `total_expenses` only sums
type "expense". -/
theorem c5_counterexample :
    runAnalysis c5text = some c5res ∧
    sumValues c5res.summary.expense_by_category = 50 ∧
    c5res.summary.total_expenses = 0 := by decide

/-- C5 (amended): for every input text, the sum of expense_by_category values
equals total_expenses plus the total amount of payment-type transactions
(every non-income transaction is grouped into expense_by_category). -/
theorem c5_amended_category_sum (text : Chars) (r : AnalysisResult)
    (h : runAnalysis text = some r) :
    sumValues r.summary.expense_by_category =
      r.summary.total_expenses + totalOf (str "payment") r.data.transactions := by
  unfold runAnalysis at h
  split at h
  · exact absurd h (by simp)
  · rename_i fd heq
    rw [someEq h]
    show sumValues (buildMapsAux fd.transactions ([], [], [])).2.1 =
      totalOf (str "expense") fd.transactions + totalOf (str "payment") fd.transactions
    rw [buildMapsAux_exp_sum, nonIncomeSum_split fd.transactions (extract_types text fd heq)]
    simp [sumValues]

/-- Witness for C5 at `c5text`. -/
theorem c5_witness :
    sumValues c5res.summary.expense_by_category =
      c5res.summary.total_expenses + totalOf (str "payment") c5res.data.transactions :=
  c5_amended_category_sum c5text c5res (by decide)

/-- C6 (counterexample): `format_date` fills in the hard-coded year "2025",
not the current processing year: on "Feb 28" it returns "02/28/2025", which
differs from the claimed normalizer evaluated at the current processing year
2026. -/
theorem c6_counterexample :
    format_date (str "Feb 28") = str "02/28/2025" ∧
    format_date_claimed (str "2026") (str "Feb 28") = str "02/28/2026" ∧
    ¬ format_date (str "Feb 28") = format_date_claimed (str "2026") (str "Feb 28") := by
  decide

/-- C6 (amended): `format_date` normalizes a 3-letter-month date without a
year to MM/DD/2025 — the year is the hard-coded literal "2025", not the
current processing year — and normalizes a numeric date with a 2-digit year
by zero-padding and prefixing "20". -/
theorem c6_amended_format_date :
    format_date (str "Feb 28") = str "02/28/2025" ∧
    format_date (str "2/5/23") = str "02/05/2023" := by decide

/-- C7 (counterexample): a transaction extracted before any section header
reaches the statement's transaction list but no bucket: on `c7text` the list
has one transaction and all three buckets are empty. -/
theorem c7_counterexample :
    extractFD c7text = some c7st ∧
    c7st.transactions.length = 1 ∧
    c7st.sec_account_summary = [] ∧
    c7st.sec_payments_credits = [] ∧
    c7st.sec_transactions = [] := by decide

/-- C7 (amended): a transaction appended while a section is active goes to
exactly one bucket, and one appended while no section is active goes to no
bucket; hence the bucket sizes sum to at most the transaction-list length and
every bucket member is in the transaction list. -/
theorem c7_bucket_partition (text : Chars) (st : ExtractState)
    (h : extractFD text = some st) :
    st.sec_account_summary.length + st.sec_payments_credits.length +
      st.sec_transactions.length ≤ st.transactions.length ∧
    ∀ t, (t ∈ st.sec_account_summary ∨ t ∈ st.sec_payments_credits ∨
      t ∈ st.sec_transactions) → t ∈ st.transactions := by
  refine extract_inv (fun s =>
    s.sec_account_summary.length + s.sec_payments_credits.length +
      s.sec_transactions.length ≤ s.transactions.length ∧
    ∀ t, (t ∈ s.sec_account_summary ∨ t ∈ s.sec_payments_credits ∨
      t ∈ s.sec_transactions) → t ∈ s.transactions) ?_ ?_ ?_ text st h
  · intro cc s l s' hpl hp
    rcases processLine_shape hpl with ⟨e1, e2, e3, e4, _⟩ | ⟨b, t, _, _, hps⟩
    · rw [e1, e2, e3, e4]
      exact hp
    · subst hps
      constructor
      · refine le_trans (pushT_bucket_lengths _ t) ?_
        rw [pushT_transactions, List.length_append]
        exact Nat.add_le_add_right hp.1 1
      · intro t' ht'
        rw [pushT_transactions]
        rcases ht' with hb | hb | hb
        · rcases mem_pushT_b1 hb with hm | hm
          · exact List.mem_append.mpr (Or.inl (hp.2 t' (Or.inl hm)))
          · exact List.mem_append.mpr (Or.inr (by rw [hm]; exact List.mem_singleton_self t))
        · rcases mem_pushT_b2 hb with hm | hm
          · exact List.mem_append.mpr (Or.inl (hp.2 t' (Or.inr (Or.inl hm))))
          · exact List.mem_append.mpr (Or.inr (by rw [hm]; exact List.mem_singleton_self t))
        · rcases mem_pushT_b3 hb with hm | hm
          · exact List.mem_append.mpr (Or.inl (hp.2 t' (Or.inr (Or.inr hm))))
          · exact List.mem_append.mpr (Or.inr (by rw [hm]; exact List.mem_singleton_self t))
  · refine ⟨Nat.le_refl 0, ?_⟩
    intro t ht
    rcases ht with h | h | h <;> exact absurd h (by simp [initState])
  · intro cc s hp
    obtain ⟨f1, f2, f3, f4, _⟩ := finalizeFD_fields cc s
    rw [f1, f2, f3, f4]
    exact hp

/-- Witness for C7 at `c7wText`. -/
theorem c7_witness :
    c7wSt.sec_account_summary.length + c7wSt.sec_payments_credits.length +
      c7wSt.sec_transactions.length ≤ c7wSt.transactions.length :=
  (c7_bucket_partition c7wText c7wSt (by decide)).1

/-- C8: the extraction-and-summary pipeline is deterministic — it is a pure
function of the input text (the embedding threads all state explicitly and
consults nothing else), so two runs on the same text agree. -/
theorem c8_deterministic (t1 t2 : Chars) (h : t1 = t2) :
    runAnalysis t1 = runAnalysis t2 := by
  rw [h]

/-- Witness for C8 at `"VISA"`. -/
theorem c8_witness : runAnalysis (str "VISA") = runAnalysis (str "VISA") :=
  c8_deterministic (str "VISA") (str "VISA") rfl

/-- C9: the parser never assigns type "income": total_income is 0,
income_by_category is empty, net_cash_flow is the negation of total_expenses,
and every transaction has type "expense" or "payment". -/
theorem c9_no_income (text : Chars) (r : AnalysisResult)
    (h : runAnalysis text = some r) :
    r.summary.total_income = 0 ∧
    r.summary.income_by_category = [] ∧
    r.summary.net_cash_flow = -r.summary.total_expenses ∧
    ∀ t ∈ r.data.transactions, t.type = str "expense" ∨ t.type = str "payment" := by
  unfold runAnalysis at h
  split at h
  · exact absurd h (by simp)
  · rename_i fd heq
    have htypes := extract_types text fd heq
    have hnoinc : ∀ t ∈ fd.transactions, ¬ t.type = str "income" := by
      intro t ht
      rcases htypes t ht with h' | h' <;> rw [h'] <;> decide
    rw [someEq h]
    refine ⟨?_, ?_, ?_, htypes⟩
    · show totalOf (str "income") fd.transactions = 0
      exact totalOf_income_zero fd.transactions hnoinc
    · show (buildMapsAux fd.transactions ([], [], [])).1 = []
      exact buildMapsAux_inc_nil fd.transactions _ _ hnoinc
    · show totalOf (str "income") fd.transactions - totalOf (str "expense") fd.transactions =
        -(totalOf (str "expense") fd.transactions)
      rw [totalOf_income_zero fd.transactions hnoinc]
      ring
/-- Witness for C9 at `c9text`. -/
theorem c9_witness : c9res.summary.total_income = 0 :=
  (c9_no_income c9text c9res (by decide)).1

/-- C10: the "categories" collection of the result is always empty — the
parser initializes it and nothing ever adds to it. -/
theorem c10_categories_empty (text : Chars) (st : ExtractState)
    (h : extractFD text = some st) : st.categories = [] := by
  refine extract_inv (fun s => s.categories = []) ?_ ?_ ?_ text st h
  · intro cc s l s' hpl hp
    rcases processLine_shape hpl with ⟨_, _, _, _, e5⟩ | ⟨b, t, _, _, hps⟩
    · rw [e5]
      exact hp
    · subst hps
      rw [pushT_categories]
      exact hp
  · rfl
  · intro cc s hp
    rw [(finalizeFD_fields cc s).2.2.2.2]
    exact hp

/-- Witness for C10 at `c10text`. -/
theorem c10_witness : c10st.categories = [] :=
  c10_categories_empty c10text c10st (by decide)

end PdfReader

